import Mathlib

/-!
Shallow embedding of the `human_ai_framework` repository core:
the catalog enumerations, the `HumanAIFramework` aggregate
(`core/framework.py`), the factory (`core/factory.py`) and the
interaction session log (`models/interaction.py`).

Python sets are modelled as duplicate-free lists (`setAdd` inserts only
when absent, matching `set.add` membership semantics); `datetime.now()`
is modelled by explicit instant parameters (`Nat`), one per call site;
Python exceptions are modelled by `Except PyError`.
-/

namespace HumanAI

/-- `Role` enumeration from `core/framework.py`. -/
inductive Role where
  | HUMAN
  | AI
deriving DecidableEq, Repr

/-- `EthicalPrinciple` enumeration from `core/framework.py`. -/
inductive EthicalPrinciple where
  | TRANSPARENCY
  | ACCOUNTABILITY
  | PRIVACY
  | FAIRNESS
deriving DecidableEq, Repr

/-- `CommunicationProtocol` enumeration from `core/framework.py`. -/
inductive CommunicationProtocol where
  | STRUCTURED_DIALOGUE
  | CLARIFICATION
  | CONSISTENCY
deriving DecidableEq, Repr

/-- `FeedbackMechanism` enumeration from `core/framework.py`. -/
inductive FeedbackMechanism where
  | IMMEDIATE
  | SCHEDULED
  | ISSUE_TRACKING
deriving DecidableEq, Repr

/-- `ImprovementProcess` enumeration from `core/framework.py`. -/
inductive ImprovementProcess where
  | CONTINUOUS_LEARNING
  | RETROSPECTIVE_ANALYSIS
  | INCREMENTAL_ENHANCEMENT
deriving DecidableEq, Repr

/-- `CollaborationWorkflow` enumeration from `core/framework.py`. -/
inductive CollaborationWorkflow where
  | TASK_DISTRIBUTION
  | COMMUNICATION_CHANNELS
  | DOCUMENTATION
deriving DecidableEq, Repr

/-- Members of `EthicalPrinciple` in declaration order (the order Python
iterates `for principle in EthicalPrinciple`). -/
def EthicalPrinciple.all : List EthicalPrinciple :=
  [.TRANSPARENCY, .ACCOUNTABILITY, .PRIVACY, .FAIRNESS]

/-- Members of `CommunicationProtocol` in declaration order. -/
def CommunicationProtocol.all : List CommunicationProtocol :=
  [.STRUCTURED_DIALOGUE, .CLARIFICATION, .CONSISTENCY]

/-- Members of `FeedbackMechanism` in declaration order. -/
def FeedbackMechanism.all : List FeedbackMechanism :=
  [.IMMEDIATE, .SCHEDULED, .ISSUE_TRACKING]

/-- Members of `ImprovementProcess` in declaration order. -/
def ImprovementProcess.all : List ImprovementProcess :=
  [.CONTINUOUS_LEARNING, .RETROSPECTIVE_ANALYSIS, .INCREMENTAL_ENHANCEMENT]

/-- Members of `CollaborationWorkflow` in declaration order. -/
def CollaborationWorkflow.all : List CollaborationWorkflow :=
  [.TASK_DISTRIBUTION, .COMMUNICATION_CHANNELS, .DOCUMENTATION]

/-- `RoleResponsibility` dataclass from `core/framework.py`. -/
structure RoleResponsibility where
  description : String
  role : Role
deriving DecidableEq, Repr

/-- Insertion into a Python `set`, modelled on a duplicate-free list:
`s.add(x)` is a no-op when `x` is already a member. -/
def setAdd {α : Type} [DecidableEq α] (l : List α) (x : α) : List α :=
  if x ∈ l then l else l ++ [x]

/-- State of a `HumanAIFramework` instance (`core/framework.py`).
The `responsibilities` dict keyed by the two roles is flattened into the
two fields `respHuman` and `respAI`; the five `active_*` Python sets are
duplicate-free lists maintained by `setAdd`. -/
structure HumanAIFramework where
  respHuman : List RoleResponsibility
  respAI : List RoleResponsibility
  active_principles : List EthicalPrinciple
  active_protocols : List CommunicationProtocol
  active_feedback_mechanisms : List FeedbackMechanism
  active_improvement_processes : List ImprovementProcess
  active_workflows : List CollaborationWorkflow
deriving DecidableEq, Repr

namespace HumanAIFramework

/-- The `self.responsibilities[role]` lookup. -/
def responsibilities (fw : HumanAIFramework) : Role → List RoleResponsibility
  | .HUMAN => fw.respHuman
  | .AI => fw.respAI

/-- `HumanAIFramework.add_responsibility`: appends a new
`RoleResponsibility` tagged with `role` to that role's list. -/
def add_responsibility (fw : HumanAIFramework) (role : Role) (description : String) :
    HumanAIFramework :=
  match role with
  | .HUMAN => { fw with respHuman := fw.respHuman ++ [⟨description, role⟩] }
  | .AI => { fw with respAI := fw.respAI ++ [⟨description, role⟩] }

/-- `HumanAIFramework.add_ethical_principle`: `self.active_principles.add(principle)`. -/
def add_ethical_principle (fw : HumanAIFramework) (p : EthicalPrinciple) :
    HumanAIFramework :=
  { fw with active_principles := setAdd fw.active_principles p }

/-- `HumanAIFramework.add_communication_protocol`. -/
def add_communication_protocol (fw : HumanAIFramework) (p : CommunicationProtocol) :
    HumanAIFramework :=
  { fw with active_protocols := setAdd fw.active_protocols p }

/-- `HumanAIFramework.add_feedback_mechanism`. -/
def add_feedback_mechanism (fw : HumanAIFramework) (m : FeedbackMechanism) :
    HumanAIFramework :=
  { fw with active_feedback_mechanisms := setAdd fw.active_feedback_mechanisms m }

/-- `HumanAIFramework.add_improvement_process`. -/
def add_improvement_process (fw : HumanAIFramework) (p : ImprovementProcess) :
    HumanAIFramework :=
  { fw with active_improvement_processes := setAdd fw.active_improvement_processes p }

/-- `HumanAIFramework.add_collaboration_workflow`. -/
def add_collaboration_workflow (fw : HumanAIFramework) (w : CollaborationWorkflow) :
    HumanAIFramework :=
  { fw with active_workflows := setAdd fw.active_workflows w }

/-- `HumanAIFramework.get_responsibilities_by_role`. -/
def get_responsibilities_by_role (fw : HumanAIFramework) (role : Role) :
    List RoleResponsibility :=
  fw.responsibilities role

/-- The state set up by `__init__` before `_initialize_default_framework`
runs: empty ledgers and empty active sets. -/
def emptyState : HumanAIFramework :=
  { respHuman := []
    respAI := []
    active_principles := []
    active_protocols := []
    active_feedback_mechanisms := []
    active_improvement_processes := []
    active_workflows := [] }

/-- `HumanAIFramework._initialize_default_framework`: the fixed sequence of
`add_responsibility` calls followed by activating every member of every
catalog, in declaration order. -/
def defaultPopulate (fw : HumanAIFramework) : HumanAIFramework :=
  let fw := fw.add_responsibility .HUMAN
    "Define vision, strategic objectives, and contextual expertise"
  let fw := fw.add_responsibility .HUMAN
    "Provide clear instructions, ongoing feedback, and ethical oversight"
  let fw := fw.add_responsibility .HUMAN
    "Make final decisions based on comprehensive information"
  let fw := fw.add_responsibility .AI
    "Generate data-driven insights, technical solutions, and creative recommendations"
  let fw := fw.add_responsibility .AI
    "Adhere to ethical guidelines and respond to instructions with precision"
  let fw := fw.add_responsibility .AI
    "Engage in iterative improvements and document reasoning behind suggestions"
  let fw := EthicalPrinciple.all.foldl add_ethical_principle fw
  let fw := CommunicationProtocol.all.foldl add_communication_protocol fw
  let fw := FeedbackMechanism.all.foldl add_feedback_mechanism fw
  let fw := ImprovementProcess.all.foldl add_improvement_process fw
  let fw := CollaborationWorkflow.all.foldl add_collaboration_workflow fw
  fw

/-- `HumanAIFramework()` construction: empty state then
`_initialize_default_framework`. -/
def mk' : HumanAIFramework :=
  defaultPopulate emptyState

/-- The line emitted for an ethical principle by the `if`/`elif` chain in
`generate_framework_summary` (every member matches exactly one branch). -/
def principleLine : EthicalPrinciple → String
  | .TRANSPARENCY =>
    "   - Transparency: Clearly explain AI suggestions and underlying decision processes."
  | .ACCOUNTABILITY =>
    "   - Accountability: Ensure human oversight remains central to final decision-making."
  | .PRIVACY =>
    "   - Privacy: Protect personal and sensitive data in accordance with legal standards."
  | .FAIRNESS =>
    "   - Fairness: Actively mitigate biases and promote inclusivity in all outputs."

/-- The line emitted for one responsibility bullet. -/
def respLine (r : RoleResponsibility) : String :=
  "      - " ++ r.description

/-- The `summary` list built by `generate_framework_summary` before the
final `join`: fixed heading, responsibility bullets per role, one line per
member of `active_principles`, then the unconditional fixed-text blocks. -/
def summaryLines (fw : HumanAIFramework) : List String :=
  ["Human-AI Interaction Framework for Digital Product Design and Development",
   "\nPurpose:",
   "  Establish a robust, ethical, and transparent collaborative framework between human users",
   "  and AI systems to drive innovation in digital product design and development.",
   "\n1. Roles and Responsibilities:",
   "   a) Human User:"]
  ++ (fw.get_responsibilities_by_role .HUMAN).map respLine
  ++ ["   b) AI System:"]
  ++ (fw.get_responsibilities_by_role .AI).map respLine
  ++ ["\n2. Ethical Considerations:"]
  ++ fw.active_principles.map principleLine
  ++ ["\n3. Communication Protocols:",
      "   - Structured Dialogue: Clear, concise directives and contextual, actionable responses.",
      "   - Clarification Protocols: Request additional details when instructions are unclear.",
      "   - Consistency: Maintain standards for formatting, terminology, and response structure.",
      "\n4. Feedback Mechanisms:",
      "   - Immediate Feedback: Real-time feedback for rapid adjustments.",
      "   - Scheduled Reviews: Regular check-ins to assess process efficacy.",
      "   - Issue Tracking: Maintain a shared log to record challenges and resolutions.",
      "\n5. Iterative Improvement Processes:",
      "   - Continuous Learning: Integrate updated domain knowledge and best practices.",
      "   - Retrospective Analysis: Evaluate each development cycle for lessons learned.",
      "   - Incremental Enhancements: Implement small updates that drive long-term progress.",
      "\n6. Collaborative Workflow:",
      "   - Task Distribution: Clearly delineate responsibilities and establish milestones.",
      "   - Communication Channels: Utilize structured channels for all interactions.",
      "   - Documentation: Archive decisions, feedback, and process updates.",
      "\nCommitment:",
      "  Both human users and AI systems commit to operating within this framework, ensuring that",
      "  collaborative efforts are effective, ethically sound, and continuously evolving to meet",
      "  the needs of digital product innovation."]

/-- `HumanAIFramework.generate_framework_summary`: the joined summary.
A pure function of the state, so it has no side effect on the aggregate. -/
def generate_framework_summary (fw : HumanAIFramework) : String :=
  String.intercalate "\n" (summaryLines fw)

end HumanAIFramework

/-- `HumanAIFrameworkFactory.create_default_framework`: `HumanAIFramework()`. -/
def create_default_framework : HumanAIFramework :=
  HumanAIFramework.mk'

/-- `HumanAIFrameworkFactory.create_custom_framework` as declared (typed
optional lists; a `none` argument models Python's default `None`).  Builds
a default aggregate, clears both ledgers and all five active sets, then
re-adds exactly the supplied items in order.  Each Python guard
`if xs:` (falsy for `None` and for an empty list) is rendered as the
`isEmpty` test on `xs.getD []`. -/
def create_custom_framework
    (human_responsibilities ai_responsibilities : Option (List String))
    (ethical_principles : Option (List EthicalPrinciple))
    (communication_protocols : Option (List CommunicationProtocol))
    (feedback_mechanisms : Option (List FeedbackMechanism))
    (improvement_processes : Option (List ImprovementProcess))
    (collaboration_workflows : Option (List CollaborationWorkflow)) :
    HumanAIFramework :=
  let fw := HumanAIFramework.mk'
  let fw := { fw with
    respHuman := [], respAI := [],
    active_principles := [], active_protocols := [],
    active_feedback_mechanisms := [], active_improvement_processes := [],
    active_workflows := [] }
  let hr := human_responsibilities.getD []
  let fw := if hr.isEmpty then fw else
    hr.foldl (fun f d => f.add_responsibility .HUMAN d) fw
  let ar := ai_responsibilities.getD []
  let fw := if ar.isEmpty then fw else
    ar.foldl (fun f d => f.add_responsibility .AI d) fw
  let eps := ethical_principles.getD []
  let fw := if eps.isEmpty then fw else
    eps.foldl HumanAIFramework.add_ethical_principle fw
  let cps := communication_protocols.getD []
  let fw := if cps.isEmpty then fw else
    cps.foldl HumanAIFramework.add_communication_protocol fw
  let fms := feedback_mechanisms.getD []
  let fw := if fms.isEmpty then fw else
    fms.foldl HumanAIFramework.add_feedback_mechanism fw
  let ips := improvement_processes.getD []
  let fw := if ips.isEmpty then fw else
    ips.foldl HumanAIFramework.add_improvement_process fw
  let cws := collaboration_workflows.getD []
  let fw := if cws.isEmpty then fw else
    cws.foldl HumanAIFramework.add_collaboration_workflow fw
  fw

/-- Python exception kinds relevant to the factory pipeline. -/
inductive PyError where
  | typeError (msg : String)
  | valueError (msg : String)
  | keyError (msg : String)
deriving DecidableEq, Repr

/-- Dynamically-typed configuration values: the value kinds exercised by
the claims (text, integers, and nested sequences). -/
inductive ConfigValue where
  | str (s : String)
  | int (n : Int)
  | list (xs : List ConfigValue)
deriving Repr

/-- A configuration mapping, `string -> value` (first binding wins, as in a
Python dict each key occurs once). -/
def Config : Type := List (String × ConfigValue)

/-- `config.get(key, default)`. -/
def configGet (c : Config) (key : String) (dflt : ConfigValue) : ConfigValue :=
  match c.find? (fun kv => kv.1 == key) with
  | some kv => kv.2
  | none => dflt

/-- Python iteration over a dynamic value: lists yield their elements,
strings yield their one-character substrings, integers raise `TypeError`. -/
def pyIter : ConfigValue → Except PyError (List ConfigValue)
  | .list xs => .ok xs
  | .str s => .ok (s.data.map (fun c => .str (String.singleton c)))
  | .int _ => .error (.typeError "argument of type 'int' is not iterable")

/-- Python truthiness of a dynamic value (`if x:`). -/
def pyTruthy : ConfigValue → Bool
  | .list xs => !xs.isEmpty
  | .str s => !s.isEmpty
  | .int n => n != 0

/-- `.name` of an `EthicalPrinciple` member, as in `__members__`. -/
def EthicalPrinciple.pyName : EthicalPrinciple → String
  | .TRANSPARENCY => "TRANSPARENCY"
  | .ACCOUNTABILITY => "ACCOUNTABILITY"
  | .PRIVACY => "PRIVACY"
  | .FAIRNESS => "FAIRNESS"

/-- `.name` of a `CommunicationProtocol` member. -/
def CommunicationProtocol.pyName : CommunicationProtocol → String
  | .STRUCTURED_DIALOGUE => "STRUCTURED_DIALOGUE"
  | .CLARIFICATION => "CLARIFICATION"
  | .CONSISTENCY => "CONSISTENCY"

/-- `.name` of a `FeedbackMechanism` member. -/
def FeedbackMechanism.pyName : FeedbackMechanism → String
  | .IMMEDIATE => "IMMEDIATE"
  | .SCHEDULED => "SCHEDULED"
  | .ISSUE_TRACKING => "ISSUE_TRACKING"

/-- `.name` of an `ImprovementProcess` member. -/
def ImprovementProcess.pyName : ImprovementProcess → String
  | .CONTINUOUS_LEARNING => "CONTINUOUS_LEARNING"
  | .RETROSPECTIVE_ANALYSIS => "RETROSPECTIVE_ANALYSIS"
  | .INCREMENTAL_ENHANCEMENT => "INCREMENTAL_ENHANCEMENT"

/-- `.name` of a `CollaborationWorkflow` member. -/
def CollaborationWorkflow.pyName : CollaborationWorkflow → String
  | .TASK_DISTRIBUTION => "TASK_DISTRIBUTION"
  | .COMMUNICATION_CHANNELS => "COMMUNICATION_CHANNELS"
  | .DOCUMENTATION => "DOCUMENTATION"

/-- One step of the comprehension
`[E[name] for name in cfg if name in E.__members__]`: a string name is
looked up in the member table (and dropped when absent), a hashable
non-string such as an integer fails the membership test and is dropped,
and an unhashable value (a list) raises `TypeError` from the hash lookup. -/
def resolveOne {α : Type} (all : List α) (pyName : α → String) :
    ConfigValue → Except PyError (Option α)
  | .str s => .ok (all.find? (fun p => pyName p == s))
  | .int _ => .ok none
  | .list _ => .error (.typeError "unhashable type: 'list'")

/-- The comprehension's left-to-right traversal, stopping at the first
raised error. -/
def resolveList {α : Type} (all : List α) (pyName : α → String) :
    List ConfigValue → Except PyError (List (Option α))
  | [] => .ok []
  | v :: vs => do
      let o ← resolveOne all pyName v
      let rest ← resolveList all pyName vs
      pure (o :: rest)

/-- The full comprehension over one catalog's configured name list. -/
def resolveNames {α : Type} (all : List α) (pyName : α → String)
    (v : ConfigValue) : Except PyError (List α) := do
  let items ← pyIter v
  let opts ← resolveList all pyName items
  pure (opts.filterMap id)

/-- The framework state as used by `create_framework_from_config`, where
the responsibility lists received dynamic values: descriptions are stored
as given (uninspected), while the five active sets hold catalog members. -/
structure DynFramework where
  respHuman : List ConfigValue
  respAI : List ConfigValue
  active_principles : List EthicalPrinciple
  active_protocols : List CommunicationProtocol
  active_feedback_mechanisms : List FeedbackMechanism
  active_improvement_processes : List ImprovementProcess
  active_workflows : List CollaborationWorkflow
deriving Repr

/-- The cleared state `create_custom_framework` reaches after building the
default framework and clearing both ledgers and all five active sets. -/
def DynFramework.cleared : DynFramework :=
  ⟨[], [], [], [], [], [], []⟩

/-- The five catalog sections of `create_custom_framework` (each a Python
`if xs:` guard followed by a loop of `add_*` calls into the active set);
these receive already-typed member lists, so they are pure. -/
def dynAddCatalogs (fw : DynFramework) (eps : List EthicalPrinciple)
    (cps : List CommunicationProtocol) (fms : List FeedbackMechanism)
    (ips : List ImprovementProcess) (cws : List CollaborationWorkflow) :
    DynFramework :=
  let fw := if eps.isEmpty then fw else
    { fw with active_principles := eps.foldl setAdd fw.active_principles }
  let fw := if cps.isEmpty then fw else
    { fw with active_protocols := cps.foldl setAdd fw.active_protocols }
  let fw := if fms.isEmpty then fw else
    { fw with active_feedback_mechanisms := fms.foldl setAdd fw.active_feedback_mechanisms }
  let fw := if ips.isEmpty then fw else
    { fw with active_improvement_processes := ips.foldl setAdd fw.active_improvement_processes }
  let fw := if cws.isEmpty then fw else
    { fw with active_workflows := cws.foldl setAdd fw.active_workflows }
  fw

/-- The `human_responsibilities` section of `create_custom_framework`
under dynamic typing: `if human_responsibilities:` truthiness, then the
loop of `add_responsibility(HUMAN, _)` calls over the iterated value
(iteration raises `TypeError` on an integer). -/
def dynRespBranchH (fw : DynFramework) (hr : ConfigValue) :
    Except PyError DynFramework :=
  if pyTruthy hr then
    (pyIter hr).bind (fun items =>
      pure { fw with respHuman := fw.respHuman ++ items })
  else pure fw

/-- The `ai_responsibilities` section, as `dynRespBranchH` for role AI. -/
def dynRespBranchA (fw : DynFramework) (ar : ConfigValue) :
    Except PyError DynFramework :=
  if pyTruthy ar then
    (pyIter ar).bind (fun items =>
      pure { fw with respAI := fw.respAI ++ items })
  else pure fw

/-- `HumanAIFrameworkFactory.create_custom_framework` as invoked by
`create_framework_from_config` under dynamic typing: the two
responsibility arguments arrive as raw configuration values,
while the five catalog arguments were already resolved to member lists.
The sections run in source order on the cleared default framework. -/
def dynCreateCustomFramework (hr ar : ConfigValue)
    (eps : List EthicalPrinciple) (cps : List CommunicationProtocol)
    (fms : List FeedbackMechanism) (ips : List ImprovementProcess)
    (cws : List CollaborationWorkflow) : Except PyError DynFramework :=
  (dynRespBranchH DynFramework.cleared hr).bind (fun fw =>
    (dynRespBranchA fw ar).bind (fun fw =>
      pure (dynAddCatalogs fw eps cps fms ips cws)))

/-- `HumanAIFrameworkFactory.create_framework_from_config`: extracts the
seven optional keys (default `[]`), resolves the five catalog name lists,
delegates to `create_custom_framework`, and wraps only `KeyError` and
`ValueError` as `ValueError("Invalid configuration format: ...")` — any
`TypeError` raised during resolution or delegation propagates unchanged. -/
def create_framework_from_config (config : Config) : Except PyError DynFramework :=
  let body : Except PyError DynFramework := do
    let hr := configGet config "human_responsibilities" (.list [])
    let ar := configGet config "ai_responsibilities" (.list [])
    let eps ← resolveNames EthicalPrinciple.all EthicalPrinciple.pyName
      (configGet config "ethical_principles" (.list []))
    let cps ← resolveNames CommunicationProtocol.all CommunicationProtocol.pyName
      (configGet config "communication_protocols" (.list []))
    let fms ← resolveNames FeedbackMechanism.all FeedbackMechanism.pyName
      (configGet config "feedback_mechanisms" (.list []))
    let ips ← resolveNames ImprovementProcess.all ImprovementProcess.pyName
      (configGet config "improvement_processes" (.list []))
    let cws ← resolveNames CollaborationWorkflow.all CollaborationWorkflow.pyName
      (configGet config "collaboration_workflows" (.list []))
    dynCreateCustomFramework hr ar eps cps fms ips cws
  match body with
  | .ok fw => .ok fw
  | .error (.keyError m) => .error (.valueError ("Invalid configuration format: " ++ m))
  | .error (.valueError m) => .error (.valueError ("Invalid configuration format: " ++ m))
  | .error (.typeError m) => .error (.typeError m)

/-- `InteractionType` enumeration from `models/interaction.py`. -/
inductive InteractionType where
  | INSTRUCTION
  | RESPONSE
  | CLARIFICATION
  | FEEDBACK
  | SUGGESTION
  | DECISION
  | STATUS
deriving DecidableEq, Repr

/-- `InteractionStatus` enumeration from `models/interaction.py`. -/
inductive InteractionStatus where
  | PENDING
  | IN_PROGRESS
  | COMPLETED
  | FAILED
  | CANCELLED
deriving DecidableEq, Repr

/-- Metadata dictionaries, modelled as string-keyed association lists
(the claims only exercise the empty dictionary). -/
abbrev Metadata : Type := List (String × String)

/-- `Message` dataclass from `models/interaction.py`; `timestamp` is the
instant returned by the `datetime.now()` call that stamped it. -/
structure Message where
  content : String
  role : Role
  timestamp : Nat
  metadata : Metadata
deriving Repr

/-- `Interaction` dataclass from `models/interaction.py`. -/
structure Interaction where
  interaction_id : String
  interaction_type : InteractionType
  status : InteractionStatus
  messages : List Message
  created_at : Nat
  updated_at : Nat
  metadata : Metadata
deriving Repr

namespace Interaction

/-- `Interaction.add_message`: builds a `Message` stamped with the first
`datetime.now()` reading `tMsg`, appends it, sets `updated_at` to the
second reading `tUpd`, and returns the message with the new state. -/
def add_message (i : Interaction) (content : String) (role : Role)
    (metadata : Metadata) (tMsg tUpd : Nat) : Message × Interaction :=
  let message : Message := ⟨content, role, tMsg, metadata⟩
  (message, { i with messages := i.messages ++ [message], updated_at := tUpd })

/-- `Interaction.get_last_message`: `None` when `messages` is empty,
otherwise `messages[-1]`. -/
def get_last_message (i : Interaction) : Option Message :=
  if i.messages.isEmpty then none else i.messages.getLast?

/-- `Interaction.get_messages_by_role`: the messages of the given role in
append order. -/
def get_messages_by_role (i : Interaction) (role : Role) : List Message :=
  i.messages.filter (fun m => m.role == role)

end Interaction

/-- `InteractionSession` dataclass from `models/interaction.py`. -/
structure InteractionSession where
  session_id : String
  interactions : List Interaction
  created_at : Nat
  updated_at : Nat
  metadata : Metadata
deriving Repr

namespace InteractionSession

/-- `InteractionSession.add_interaction`: constructs an `Interaction` with
no messages (its `created_at`/`updated_at` stamped by the dataclass
default factories, instants `tCreated`/`tUpdated`), appends it, refreshes
the session's `updated_at` to `tSession`, and returns it.  The source
performs no duplicate-id check of any kind. -/
def add_interaction (s : InteractionSession) (interaction_id : String)
    (ty : InteractionType) (status : InteractionStatus) (metadata : Metadata)
    (tCreated tUpdated tSession : Nat) : Interaction × InteractionSession :=
  let i : Interaction := ⟨interaction_id, ty, status, [], tCreated, tUpdated, metadata⟩
  (i, { s with interactions := s.interactions ++ [i], updated_at := tSession })

/-- `InteractionSession.get_interaction`: linear scan returning the first
interaction whose id matches, else `None`. -/
def get_interaction (s : InteractionSession) (interaction_id : String) :
    Option Interaction :=
  s.interactions.find? (fun i => i.interaction_id == interaction_id)

/-- `InteractionSession.get_latest_interaction`: `None` when empty,
otherwise `interactions[-1]`. -/
def get_latest_interaction (s : InteractionSession) : Option Interaction :=
  if s.interactions.isEmpty then none else s.interactions.getLast?

end InteractionSession

/-! Helper lemmas about `setAdd` (Python set insertion). -/

theorem setAdd_of_mem {α : Type} [DecidableEq α] {l : List α} {x : α}
    (h : x ∈ l) : setAdd l x = l := by
  simp [setAdd, h]

theorem mem_setAdd {α : Type} [DecidableEq α] (l : List α) (x y : α) :
    y ∈ setAdd l x ↔ y ∈ l ∨ y = x := by
  by_cases h : x ∈ l
  · simp only [setAdd, if_pos h]
    constructor
    · exact Or.inl
    · rintro (hy | rfl) <;> [exact hy; exact h]
  · simp [setAdd, if_neg h]

theorem setAdd_idem {α : Type} [DecidableEq α] (l : List α) (x : α) :
    setAdd (setAdd l x) x = setAdd l x := by
  apply setAdd_of_mem
  rw [mem_setAdd]
  exact Or.inr rfl

theorem mem_foldl_setAdd {α : Type} [DecidableEq α] (l : List α) (s : List α)
    (x : α) : x ∈ l.foldl setAdd s ↔ x ∈ s ∨ x ∈ l := by
  induction l generalizing s with
  | nil => simp
  | cons a l ih =>
    simp only [List.foldl_cons, ih, mem_setAdd, List.mem_cons]
    tauto

/-- C1. The source `InteractionSession.add_interaction` performs no
duplicate-id check: on a fresh session, `add_interaction("x", INSTRUCTION)`
followed by `add_interaction("x", RESPONSE)` lets the second call return
normally, leaving the session with two interactions that both carry id
`"x"` — no `DuplicateIdError` exists anywhere in the code, contradicting
the claim's mandated error behavior. -/
theorem add_interaction_appends_duplicate_id :
    let s0 : InteractionSession := ⟨"s", [], 0, 0, []⟩
    let r1 := s0.add_interaction "x" .INSTRUCTION .PENDING [] 1 1 1
    let r2 := r1.2.add_interaction "x" .RESPONSE .PENDING [] 2 2 2
    r2.2.interactions.map Interaction.interaction_id = ["x", "x"] ∧
    r2.1.interaction_type = .RESPONSE ∧
    r2.2.updated_at = 2 := by
  exact ⟨rfl, rfl, rfl⟩

/-- C2. With an integer under `"human_responsibilities"`, iteration inside
the delegated `create_custom_framework` raises `TypeError`, which the
`except (KeyError, ValueError)` clause of `create_framework_from_config`
does not catch — so the failure is a `TypeError`, never the wrapped
`ValueError("Invalid configuration format: ...")` that realizes the
spec's `ConfigurationError`. -/
theorem from_config_int_responsibilities_typeerror :
    create_framework_from_config [("human_responsibilities", .int 5)]
      = .error (.typeError "argument of type 'int' is not iterable") ∧
    ∀ m : String, create_framework_from_config [("human_responsibilities", .int 5)]
      ≠ .error (.valueError m) := by
  refine ⟨rfl, ?_⟩
  intro m h
  rw [(rfl : create_framework_from_config [("human_responsibilities", .int 5)]
    = .error (.typeError "argument of type 'int' is not iterable"))] at h
  exact PyError.noConfusion (Except.error.inj h)

/-- C4. `create_custom_framework` with every parameter absent yields an
aggregate with empty ledgers for both roles and empty active sets in all
five catalogs, while `create_default_framework` yields exactly 3 human and
3 AI responsibilities and every member of all five catalogs active. -/
theorem create_custom_empty_vs_default :
    (create_custom_framework none none none none none none none
       = HumanAIFramework.emptyState) ∧
    create_default_framework.respHuman.length = 3 ∧
    create_default_framework.respAI.length = 3 ∧
    (∀ p : EthicalPrinciple, p ∈ create_default_framework.active_principles) ∧
    (∀ p : CommunicationProtocol, p ∈ create_default_framework.active_protocols) ∧
    (∀ p : FeedbackMechanism, p ∈ create_default_framework.active_feedback_mechanisms) ∧
    (∀ p : ImprovementProcess, p ∈ create_default_framework.active_improvement_processes) ∧
    (∀ p : CollaborationWorkflow, p ∈ create_default_framework.active_workflows) := by
  refine ⟨by decide, rfl, rfl, ?_, ?_, ?_, ?_, ?_⟩ <;>
    (intro p; cases p <;> decide)

/-- C9. `Interaction.add_message` returns a message whose content and role
are the arguments and whose timestamp is the clock reading taken for it,
appends exactly that message, refreshes `updated_at` to the clock reading
taken for the update, and leaves id, type, status, `created_at`, metadata
and all previously appended messages unchanged. -/
theorem add_message_appends_and_frames (i : Interaction) (c : String)
    (role : Role) (md : Metadata) (tMsg tUpd : Nat) :
    ((i.add_message c role md tMsg tUpd).1.content = c) ∧
    ((i.add_message c role md tMsg tUpd).1.role = role) ∧
    ((i.add_message c role md tMsg tUpd).1.timestamp = tMsg) ∧
    ((i.add_message c role md tMsg tUpd).1.metadata = md) ∧
    ((i.add_message c role md tMsg tUpd).2.messages
       = i.messages ++ [(i.add_message c role md tMsg tUpd).1]) ∧
    ((i.add_message c role md tMsg tUpd).2.updated_at = tUpd) ∧
    ((i.add_message c role md tMsg tUpd).2.interaction_id = i.interaction_id) ∧
    ((i.add_message c role md tMsg tUpd).2.interaction_type = i.interaction_type) ∧
    ((i.add_message c role md tMsg tUpd).2.status = i.status) ∧
    ((i.add_message c role md tMsg tUpd).2.created_at = i.created_at) ∧
    ((i.add_message c role md tMsg tUpd).2.metadata = i.metadata) :=
  ⟨rfl, rfl, rfl, rfl, rfl, rfl, rfl, rfl, rfl, rfl, rfl⟩

/-- C6. Inserting a catalog member that is already active is a no-op for
each of the five catalogs: inserting the same member twice gives the same
active set as inserting it once, and a member already present leaves the
aggregate unchanged; in particular two `add_ethical_principle(TRANSPARENCY)`
calls from an empty aggregate leave the active-principles size at 1. -/
theorem catalog_add_idempotent :
    (∀ (fw : HumanAIFramework) (p : EthicalPrinciple),
      (fw.add_ethical_principle p).add_ethical_principle p = fw.add_ethical_principle p) ∧
    (∀ (fw : HumanAIFramework) (p : CommunicationProtocol),
      (fw.add_communication_protocol p).add_communication_protocol p
        = fw.add_communication_protocol p) ∧
    (∀ (fw : HumanAIFramework) (m : FeedbackMechanism),
      (fw.add_feedback_mechanism m).add_feedback_mechanism m
        = fw.add_feedback_mechanism m) ∧
    (∀ (fw : HumanAIFramework) (p : ImprovementProcess),
      (fw.add_improvement_process p).add_improvement_process p
        = fw.add_improvement_process p) ∧
    (∀ (fw : HumanAIFramework) (w : CollaborationWorkflow),
      (fw.add_collaboration_workflow w).add_collaboration_workflow w
        = fw.add_collaboration_workflow w) ∧
    (∀ (fw : HumanAIFramework) (p : EthicalPrinciple),
      p ∈ fw.active_principles → fw.add_ethical_principle p = fw) ∧
    ((HumanAIFramework.emptyState.add_ethical_principle .TRANSPARENCY).add_ethical_principle
        .TRANSPARENCY).active_principles.length = 1 := by
  refine ⟨?_, ?_, ?_, ?_, ?_, ?_, by decide⟩
  · intro fw p
    simp [HumanAIFramework.add_ethical_principle, setAdd_idem]
  · intro fw p
    simp [HumanAIFramework.add_communication_protocol, setAdd_idem]
  · intro fw m
    simp [HumanAIFramework.add_feedback_mechanism, setAdd_idem]
  · intro fw p
    simp [HumanAIFramework.add_improvement_process, setAdd_idem]
  · intro fw w
    simp [HumanAIFramework.add_collaboration_workflow, setAdd_idem]
  · intro fw p h
    simp [HumanAIFramework.add_ethical_principle, setAdd_of_mem h]

/-- Witness for C6: `TRANSPARENCY` is active on the default aggregate, and
re-adding it leaves the aggregate unchanged. -/
theorem catalog_add_idempotent_witness :
    EthicalPrinciple.TRANSPARENCY ∈ HumanAIFramework.mk'.active_principles ∧
    HumanAIFramework.mk'.add_ethical_principle .TRANSPARENCY = HumanAIFramework.mk' :=
  ⟨by decide, catalog_add_idempotent.2.2.2.2.2.1 HumanAIFramework.mk' .TRANSPARENCY (by decide)⟩

/-- An arbitrary sequence of `add_responsibility` calls, applied in order. -/
def applyRespCalls (fw : HumanAIFramework) (calls : List (Role × String)) :
    HumanAIFramework :=
  calls.foldl (fun f c => f.add_responsibility c.1 c.2) fw

theorem get_responsibilities_add (fw : HumanAIFramework) (role r : Role)
    (d : String) :
    (fw.add_responsibility role d).get_responsibilities_by_role r
      = if role = r then fw.get_responsibilities_by_role r ++ [⟨d, role⟩]
        else fw.get_responsibilities_by_role r := by
  cases role <;> cases r <;>
    simp [HumanAIFramework.add_responsibility,
      HumanAIFramework.get_responsibilities_by_role, HumanAIFramework.responsibilities]

theorem applyRespCalls_get (fw : HumanAIFramework) (calls : List (Role × String))
    (r : Role) :
    (applyRespCalls fw calls).get_responsibilities_by_role r
      = fw.get_responsibilities_by_role r
        ++ (calls.filter (fun c => c.1 = r)).map (fun c => ⟨c.2, c.1⟩) := by
  induction calls generalizing fw with
  | nil => simp [applyRespCalls]
  | cons c cs ih =>
    rw [show applyRespCalls fw (c :: cs)
        = applyRespCalls (fw.add_responsibility c.1 c.2) cs from rfl, ih,
      get_responsibilities_add]
    by_cases h : c.1 = r
    · simp [h, List.filter_cons]
    · simp [h, List.filter_cons]

theorem roles_in_ledger (fw : HumanAIFramework)
    (hH : ∀ x ∈ fw.respHuman, x.role = .HUMAN)
    (hA : ∀ x ∈ fw.respAI, x.role = .AI) (r : Role) :
    ∀ x ∈ fw.get_responsibilities_by_role r, x.role = r := by
  cases r <;>
    simpa [HumanAIFramework.get_responsibilities_by_role,
      HumanAIFramework.responsibilities] using by first | exact hH | exact hA

/-- C5. Responsibilities are returned per role exactly as added and in
order: after any sequence of `add_responsibility` calls on an aggregate
whose ledgers respect role tagging, `get_responsibilities_by_role r` is
the previous ledger followed by the calls made for `r`, in call order,
and every returned entry carries role `r`; and reading back a human
responsibility list supplied to `create_custom_framework` reproduces that
list verbatim and in order. -/
theorem responsibilities_order_roundtrip :
    (∀ (fw : HumanAIFramework) (calls : List (Role × String)) (r : Role),
      (∀ x ∈ fw.respHuman, x.role = .HUMAN) →
      (∀ x ∈ fw.respAI, x.role = .AI) →
      (applyRespCalls fw calls).get_responsibilities_by_role r
        = fw.get_responsibilities_by_role r
          ++ (calls.filter (fun c => c.1 = r)).map (fun c => ⟨c.2, c.1⟩) ∧
      ∀ x ∈ (applyRespCalls fw calls).get_responsibilities_by_role r, x.role = r) ∧
    ∀ hs : List String,
      ((create_custom_framework (some hs) none none none none none
          none).get_responsibilities_by_role .HUMAN).map RoleResponsibility.description
        = hs := by
  constructor
  · intro fw calls r hH hA
    refine ⟨applyRespCalls_get fw calls r, ?_⟩
    rw [applyRespCalls_get fw calls r]
    intro x hx
    rcases List.mem_append.mp hx with hx | hx
    · exact roles_in_ledger fw hH hA r x hx
    · rcases List.mem_map.mp hx with ⟨c, hc, rfl⟩
      exact of_decide_eq_true (List.mem_filter.mp hc).2
  · intro hs
    have h : create_custom_framework (some hs) none none none none none none
        = applyRespCalls HumanAIFramework.emptyState (hs.map (fun d => (.HUMAN, d))) := by
      cases hs with
      | nil => decide
      | cons a l =>
        simp only [create_custom_framework, applyRespCalls, Option.getD_some,
          Option.getD_none, List.isEmpty_nil, List.isEmpty_cons, List.foldl_nil,
          List.foldl_map, Bool.false_eq_true, if_false, if_true]
        rfl
    rw [h, applyRespCalls_get]
    clear h
    simp only [HumanAIFramework.emptyState, HumanAIFramework.get_responsibilities_by_role,
      HumanAIFramework.responsibilities, List.nil_append, List.filter_map,
      List.map_map]
    induction hs with
    | nil => rfl
    | cons a l ih => simpa [List.filter_cons] using ih

/-- Witness for C5: one call for each role on the default aggregate, read
back for `HUMAN`; and a concrete two-element round-trip. -/
theorem responsibilities_order_roundtrip_witness :
    ((applyRespCalls HumanAIFramework.mk'
        [(.HUMAN, "h1"), (.AI, "a1")]).get_responsibilities_by_role .HUMAN
      = HumanAIFramework.mk'.get_responsibilities_by_role .HUMAN
        ++ [⟨"h1", .HUMAN⟩] ∧
     ∀ x ∈ (applyRespCalls HumanAIFramework.mk'
        [(.HUMAN, "h1"), (.AI, "a1")]).get_responsibilities_by_role .HUMAN,
       x.role = .HUMAN) ∧
    ((create_custom_framework (some ["r1", "r2"]) none none none none none
        none).get_responsibilities_by_role .HUMAN).map RoleResponsibility.description
      = ["r1", "r2"] := by
  constructor
  · have h := responsibilities_order_roundtrip.1 HumanAIFramework.mk'
      [(.HUMAN, "h1"), (.AI, "a1")] .HUMAN (by decide) (by decide)
    exact ⟨by rw [h.1]; rfl, h.2⟩
  · exact responsibilities_order_roundtrip.2 ["r1", "r2"]

/-- C7. On an interaction with no messages `get_last_message` is `none`;
after appending M1 (HUMAN), M2 (AI), M3 (HUMAN), `get_last_message` is M3
and `get_messages_by_role(HUMAN)` is exactly `[M1, M3]` in append order.
Both projections are total pure functions of the state (they never raise
and mutate nothing). -/
theorem get_last_and_by_role_projections (i : Interaction)
    (h : i.messages = []) (c1 c2 c3 : String) (md1 md2 md3 : Metadata)
    (ta ta' tb tb' tc tc' : Nat) :
    i.get_last_message = none ∧
    (let r1 := i.add_message c1 .HUMAN md1 ta ta'
     let r2 := r1.2.add_message c2 .AI md2 tb tb'
     let r3 := r2.2.add_message c3 .HUMAN md3 tc tc'
     r3.2.get_last_message = some r3.1 ∧
     r3.2.get_messages_by_role .HUMAN = [r1.1, r3.1]) := by
  refine ⟨by simp [Interaction.get_last_message, h], ?_⟩
  simp [Interaction.add_message, Interaction.get_last_message,
    Interaction.get_messages_by_role, h]

/-- Witness for C7: a concrete fresh interaction and three concrete
appended messages. -/
theorem get_last_and_by_role_projections_witness :
    (Interaction.get_last_message ⟨"i", .INSTRUCTION, .PENDING, [], 0, 0, []⟩ = none) ∧
    (let i0 : Interaction := ⟨"i", .INSTRUCTION, .PENDING, [], 0, 0, []⟩
     let r1 := i0.add_message "m1" .HUMAN [] 1 1
     let r2 := r1.2.add_message "m2" .AI [] 2 2
     let r3 := r2.2.add_message "m3" .HUMAN [] 3 3
     r3.2.get_last_message = some r3.1 ∧
     r3.2.get_messages_by_role .HUMAN = [r1.1, r3.1]) :=
  get_last_and_by_role_projections ⟨"i", .INSTRUCTION, .PENDING, [], 0, 0, []⟩
    rfl "m1" "m2" "m3" [] [] [] 1 1 2 2 3 3

/-- C10. `get_interaction` is the head of the id-filtered list in append
order: it returns `none` when no interaction matches, and when the
session's list splits as `l1 ++ i :: l2` with `i` the first match, it
returns exactly that earliest-appended `i`.  It is a pure projection of
the session state. -/
theorem get_interaction_first_match :
    (∀ (s : InteractionSession) (id : String),
      s.get_interaction id
        = (s.interactions.filter (fun i => i.interaction_id == id)).head?) ∧
    (∀ (s : InteractionSession) (id : String),
      (∀ i ∈ s.interactions, i.interaction_id ≠ id) → s.get_interaction id = none) ∧
    (∀ (s : InteractionSession) (id : String) (l1 : List Interaction)
        (i : Interaction) (l2 : List Interaction),
      s.interactions = l1 ++ i :: l2 → i.interaction_id = id →
      (∀ j ∈ l1, j.interaction_id ≠ id) → s.get_interaction id = some i) := by
  refine ⟨?_, ?_, ?_⟩
  · intro s id
    unfold InteractionSession.get_interaction
    induction s.interactions with
    | nil => rfl
    | cons a l ih =>
      by_cases h : a.interaction_id == id
      · simp [List.find?_cons, List.filter_cons, h]
      · simp only [List.find?_cons, List.filter_cons, h] at ih ⊢
        exact ih
  · intro s id h
    apply List.find?_eq_none.mpr
    intro i hi
    simpa using h i hi
  · intro s id l1 i l2 hs hid hl1
    unfold InteractionSession.get_interaction
    rw [hs]
    clear hs
    induction l1 with
    | nil => simp [List.find?_cons, hid]
    | cons a l ih =>
      have ha : (a.interaction_id == id) = false := by
        simpa using hl1 a (List.mem_cons_self a l)
      simp only [List.cons_append, List.find?_cons, ha]
      exact ih (fun j hj => hl1 j (List.mem_cons_of_mem a hj))

/-- Witness for C10: a session holding two interactions that share id
`"x"`; the lookup returns the first-appended one. -/
theorem get_interaction_first_match_witness :
    (InteractionSession.get_interaction
        ⟨"s", [⟨"x", .INSTRUCTION, .PENDING, [], 1, 1, []⟩,
               ⟨"x", .RESPONSE, .PENDING, [], 2, 2, []⟩], 0, 0, []⟩ "x"
      = some ⟨"x", .INSTRUCTION, .PENDING, [], 1, 1, []⟩) ∧
    (InteractionSession.get_interaction
        ⟨"s", [⟨"y", .INSTRUCTION, .PENDING, [], 1, 1, []⟩], 0, 0, []⟩ "x"
      = none) := by
  constructor
  · exact get_interaction_first_match.2.2
      ⟨"s", [⟨"x", .INSTRUCTION, .PENDING, [], 1, 1, []⟩,
             ⟨"x", .RESPONSE, .PENDING, [], 2, 2, []⟩], 0, 0, []⟩ "x"
      [] ⟨"x", .INSTRUCTION, .PENDING, [], 1, 1, []⟩
      [⟨"x", .RESPONSE, .PENDING, [], 2, 2, []⟩] rfl rfl (by simp)
  · exact get_interaction_first_match.2.1
      ⟨"s", [⟨"y", .INSTRUCTION, .PENDING, [], 1, 1, []⟩], 0, 0, []⟩ "x"
      (by simp)

/-- A responsibility bullet (six leading spaces) is never equal to an
ethical-principle line (three leading spaces), whatever the description. -/
theorem respLine_ne_principleLine (r : RoleResponsibility) (p : EthicalPrinciple) :
    HumanAIFramework.respLine r ≠ HumanAIFramework.principleLine p := by
  intro h
  have hd := congrArg String.data h
  rw [show HumanAIFramework.respLine r = "      - " ++ r.description from rfl,
    String.data_append] at hd
  have h3 := congrArg (fun l => l.get? 3) hd
  simp only [List.get?_eq_getElem?, List.getElem?_append] at h3
  cases p <;> simp [HumanAIFramework.principleLine] at h3

/-- The four ethical-principle lines are pairwise distinct. -/
theorem principleLine_injective {p q : EthicalPrinciple}
    (h : HumanAIFramework.principleLine p = HumanAIFramework.principleLine q) :
    p = q := by
  cases p <;> cases q <;> simp_all [HumanAIFramework.principleLine]

/-- C8. For every aggregate, the summary contains the fixed explanatory
line of an ethical principle exactly when that principle is active, while
the six numbered section headers and the fixed protocol, feedback,
improvement and workflow text blocks appear in every summary, whatever
the active sets hold.  The generator is a pure function of the state, so
it has no side effect on the aggregate. -/
theorem summary_principle_iff_and_static_sections (fw : HumanAIFramework) :
    (∀ p : EthicalPrinciple,
      HumanAIFramework.principleLine p ∈ HumanAIFramework.summaryLines fw
        ↔ p ∈ fw.active_principles) ∧
    ("\n1. Roles and Responsibilities:" ∈ HumanAIFramework.summaryLines fw) ∧
    ("\n2. Ethical Considerations:" ∈ HumanAIFramework.summaryLines fw) ∧
    ("\n3. Communication Protocols:" ∈ HumanAIFramework.summaryLines fw) ∧
    ("\n4. Feedback Mechanisms:" ∈ HumanAIFramework.summaryLines fw) ∧
    ("\n5. Iterative Improvement Processes:" ∈ HumanAIFramework.summaryLines fw) ∧
    ("\n6. Collaborative Workflow:" ∈ HumanAIFramework.summaryLines fw) ∧
    ("   - Structured Dialogue: Clear, concise directives and contextual, actionable responses."
      ∈ HumanAIFramework.summaryLines fw) ∧
    ("   - Clarification Protocols: Request additional details when instructions are unclear."
      ∈ HumanAIFramework.summaryLines fw) ∧
    ("   - Consistency: Maintain standards for formatting, terminology, and response structure."
      ∈ HumanAIFramework.summaryLines fw) ∧
    ("   - Immediate Feedback: Real-time feedback for rapid adjustments."
      ∈ HumanAIFramework.summaryLines fw) ∧
    ("   - Scheduled Reviews: Regular check-ins to assess process efficacy."
      ∈ HumanAIFramework.summaryLines fw) ∧
    ("   - Issue Tracking: Maintain a shared log to record challenges and resolutions."
      ∈ HumanAIFramework.summaryLines fw) ∧
    ("   - Continuous Learning: Integrate updated domain knowledge and best practices."
      ∈ HumanAIFramework.summaryLines fw) ∧
    ("   - Retrospective Analysis: Evaluate each development cycle for lessons learned."
      ∈ HumanAIFramework.summaryLines fw) ∧
    ("   - Incremental Enhancements: Implement small updates that drive long-term progress."
      ∈ HumanAIFramework.summaryLines fw) ∧
    ("   - Task Distribution: Clearly delineate responsibilities and establish milestones."
      ∈ HumanAIFramework.summaryLines fw) ∧
    ("   - Communication Channels: Utilize structured channels for all interactions."
      ∈ HumanAIFramework.summaryLines fw) ∧
    ("   - Documentation: Archive decisions, feedback, and process updates."
      ∈ HumanAIFramework.summaryLines fw) := by
  refine ⟨?_, ?_, ?_, ?_, ?_, ?_, ?_, ?_, ?_, ?_, ?_, ?_, ?_, ?_, ?_, ?_, ?_, ?_, ?_⟩
  · intro p
    constructor
    · intro hmem
      simp only [HumanAIFramework.summaryLines, List.mem_append] at hmem
      rcases hmem with ((((((h | h) | h) | h) | h) | h) | h)
      · exfalso; revert h; cases p <;> decide
      · rcases List.mem_map.mp h with ⟨r, _, hr⟩
        exact absurd hr (respLine_ne_principleLine r p)
      · exfalso; revert h; cases p <;> decide
      · rcases List.mem_map.mp h with ⟨r, _, hr⟩
        exact absurd hr (respLine_ne_principleLine r p)
      · exfalso; revert h; cases p <;> decide
      · rcases List.mem_map.mp h with ⟨q, hq, hqe⟩
        exact principleLine_injective hqe ▸ hq
      · exfalso; revert h; cases p <;> decide
    · intro hp
      simp only [HumanAIFramework.summaryLines, List.mem_append]
      have h := List.mem_map_of_mem HumanAIFramework.principleLine hp
      tauto
  all_goals simp [HumanAIFramework.summaryLines]

/-! Helper lemmas for the configuration pipeline (C3). -/

/-- A configuration value holding a plain list of strings. -/
def strListV (ss : List String) : ConfigValue :=
  .list (ss.map .str)

theorem resolveList_strList {α : Type} (all : List α) (pyName : α → String)
    (ss : List String) :
    resolveList all pyName (ss.map .str)
      = .ok (ss.map (fun s => all.find? (fun p => pyName p == s))) := by
  induction ss with
  | nil => rfl
  | cons a l ih =>
    show (do
        let o ← resolveOne all pyName (.str a)
        let rest ← resolveList all pyName (l.map .str)
        pure (o :: rest)) = _
    rw [ih]
    rfl

theorem resolveNames_strList {α : Type} (all : List α) (pyName : α → String)
    (ss : List String) :
    resolveNames all pyName (strListV ss)
      = .ok (ss.filterMap (fun s => all.find? (fun p => pyName p == s))) := by
  show (do
      let items ← pyIter (strListV ss)
      let opts ← resolveList all pyName items
      pure (opts.filterMap id)) = _
  rw [show pyIter (strListV ss) = .ok (ss.map .str) from rfl]
  show (do
      let opts ← resolveList all pyName (ss.map .str)
      pure (opts.filterMap id)) = _
  rw [resolveList_strList]
  show Except.ok (List.filterMap id
    (ss.map (fun s => all.find? (fun p => pyName p == s)))) = _
  rw [List.filterMap_map]
  rfl

theorem mem_filterMap_find {α : Type} [DecidableEq α] (all : List α)
    (pyName : α → String) (hinj : ∀ p q, pyName p = pyName q → p = q)
    (hall : ∀ p : α, p ∈ all) (ss : List String) (p : α) :
    p ∈ ss.filterMap (fun s => all.find? (fun q => pyName q == s))
      ↔ pyName p ∈ ss := by
  rw [List.mem_filterMap]
  constructor
  · rintro ⟨s, hs, hfind⟩
    have hbeq := List.find?_some hfind
    rw [eq_of_beq hbeq]
    exact hs
  · intro hp
    refine ⟨pyName p, hp, ?_⟩
    cases hfind : all.find? (fun q => pyName q == pyName p) with
    | none =>
      exact absurd (by simp : (pyName p == pyName p) = true)
        (by simpa using List.find?_eq_none.mp hfind p (hall p))
    | some q =>
      have hbeq := List.find?_some hfind
      exact congrArg some (hinj q p (eq_of_beq hbeq))

theorem dynBranch_hr (fw : DynFramework) (ss : List String) :
    dynRespBranchH fw (strListV ss)
      = Except.ok { fw with respHuman := fw.respHuman ++ ss.map .str } := by
  cases ss with
  | nil =>
    simp only [strListV, List.map_nil, List.append_nil]
    rfl
  | cons a l => rfl

theorem dynBranch_ar (fw : DynFramework) (ss : List String) :
    dynRespBranchA fw (strListV ss)
      = Except.ok { fw with respAI := fw.respAI ++ ss.map .str } := by
  cases ss with
  | nil =>
    simp only [strListV, List.map_nil, List.append_nil]
    rfl
  | cons a l => rfl

theorem dynAddCatalogs_eq (fw : DynFramework) (eps : List EthicalPrinciple)
    (cps : List CommunicationProtocol) (fms : List FeedbackMechanism)
    (ips : List ImprovementProcess) (cws : List CollaborationWorkflow) :
    dynAddCatalogs fw eps cps fms ips cws
      = { fw with
          active_principles := eps.foldl setAdd fw.active_principles,
          active_protocols := cps.foldl setAdd fw.active_protocols,
          active_feedback_mechanisms := fms.foldl setAdd fw.active_feedback_mechanisms,
          active_improvement_processes := ips.foldl setAdd fw.active_improvement_processes,
          active_workflows := cws.foldl setAdd fw.active_workflows } := by
  cases eps <;> cases cps <;> cases fms <;> cases ips <;> cases cws <;> rfl

theorem exceptBindOk {ε α β : Type} (v : α) (k : α → Except ε β) :
    Bind.bind (Except.ok v) k = k v := rfl

theorem ep_pyName_inj (p q : EthicalPrinciple)
    (h : p.pyName = q.pyName) : p = q := by
  cases p <;> cases q <;> simp_all [EthicalPrinciple.pyName]

theorem ep_mem_all (p : EthicalPrinciple) : p ∈ EthicalPrinciple.all := by
  cases p <;> decide

theorem cp_pyName_inj (p q : CommunicationProtocol)
    (h : p.pyName = q.pyName) : p = q := by
  cases p <;> cases q <;> simp_all [CommunicationProtocol.pyName]

theorem cp_mem_all (p : CommunicationProtocol) :
    p ∈ CommunicationProtocol.all := by
  cases p <;> decide

theorem fm_pyName_inj (p q : FeedbackMechanism)
    (h : p.pyName = q.pyName) : p = q := by
  cases p <;> cases q <;> simp_all [FeedbackMechanism.pyName]

theorem fm_mem_all (p : FeedbackMechanism) :
    p ∈ FeedbackMechanism.all := by
  cases p <;> decide

theorem ip_pyName_inj (p q : ImprovementProcess)
    (h : p.pyName = q.pyName) : p = q := by
  cases p <;> cases q <;> simp_all [ImprovementProcess.pyName]

theorem ip_mem_all (p : ImprovementProcess) :
    p ∈ ImprovementProcess.all := by
  cases p <;> decide

theorem cw_pyName_inj (p q : CollaborationWorkflow)
    (h : p.pyName = q.pyName) : p = q := by
  cases p <;> cases q <;> simp_all [CollaborationWorkflow.pyName]

theorem cw_mem_all (p : CollaborationWorkflow) :
    p ∈ CollaborationWorkflow.all := by
  cases p <;> decide

theorem dynCreate_ok (hs as : List String) (eps : List EthicalPrinciple)
    (cps : List CommunicationProtocol) (fms : List FeedbackMechanism)
    (ips : List ImprovementProcess) (cws : List CollaborationWorkflow) :
    dynCreateCustomFramework (strListV hs) (strListV as) eps cps fms ips cws
      = .ok ⟨hs.map .str, as.map .str, eps.foldl setAdd [], cps.foldl setAdd [],
             fms.foldl setAdd [], ips.foldl setAdd [], cws.foldl setAdd []⟩ := by
  rw [dynCreateCustomFramework, dynBranch_hr]
  rw [show (Except.ok { DynFramework.cleared with
      respHuman := DynFramework.cleared.respHuman ++ hs.map .str }).bind
        (fun fw => (dynRespBranchA fw (strListV as)).bind (fun fw =>
          pure (dynAddCatalogs fw eps cps fms ips cws)))
    = (dynRespBranchA { DynFramework.cleared with
        respHuman := DynFramework.cleared.respHuman ++ hs.map .str }
        (strListV as)).bind (fun fw =>
          pure (dynAddCatalogs fw eps cps fms ips cws)) from rfl]
  rw [dynBranch_ar]
  rw [show (Except.ok { DynFramework.cleared with
      respHuman := DynFramework.cleared.respHuman ++ hs.map .str,
      respAI := DynFramework.cleared.respAI ++ as.map .str }).bind
        (fun fw => (pure (dynAddCatalogs fw eps cps fms ips cws) :
          Except PyError DynFramework))
    = pure (dynAddCatalogs { DynFramework.cleared with
        respHuman := DynFramework.cleared.respHuman ++ hs.map .str,
        respAI := DynFramework.cleared.respAI ++ as.map .str }
        eps cps fms ips cws) from rfl]
  rw [dynAddCatalogs_eq]
  rfl

/-- C3. On a configuration whose seven keys hold lists of strings, the
factory succeeds (no error is raised), and for each of the five catalogs a
member is active in the result exactly when its name occurs in that
catalog's configured list — names matching no member are silently
dropped. -/
theorem from_config_resolves_and_drops_unknown_names
    (config : Config) (hrs ars eps cps fms ips cws : List String)
    (h1 : configGet config "human_responsibilities" (.list []) = strListV hrs)
    (h2 : configGet config "ai_responsibilities" (.list []) = strListV ars)
    (h3 : configGet config "ethical_principles" (.list []) = strListV eps)
    (h4 : configGet config "communication_protocols" (.list []) = strListV cps)
    (h5 : configGet config "feedback_mechanisms" (.list []) = strListV fms)
    (h6 : configGet config "improvement_processes" (.list []) = strListV ips)
    (h7 : configGet config "collaboration_workflows" (.list []) = strListV cws) :
    ∃ fw : DynFramework,
      create_framework_from_config config = .ok fw ∧
      (∀ p : EthicalPrinciple, p ∈ fw.active_principles ↔ p.pyName ∈ eps) ∧
      (∀ p : CommunicationProtocol, p ∈ fw.active_protocols ↔ p.pyName ∈ cps) ∧
      (∀ p : FeedbackMechanism, p ∈ fw.active_feedback_mechanisms ↔ p.pyName ∈ fms) ∧
      (∀ p : ImprovementProcess, p ∈ fw.active_improvement_processes ↔ p.pyName ∈ ips) ∧
      (∀ p : CollaborationWorkflow, p ∈ fw.active_workflows ↔ p.pyName ∈ cws) := by
  refine ⟨⟨hrs.map .str, ars.map .str,
    (eps.filterMap (fun s => EthicalPrinciple.all.find?
      (fun p => p.pyName == s))).foldl setAdd [],
    (cps.filterMap (fun s => CommunicationProtocol.all.find?
      (fun p => p.pyName == s))).foldl setAdd [],
    (fms.filterMap (fun s => FeedbackMechanism.all.find?
      (fun p => p.pyName == s))).foldl setAdd [],
    (ips.filterMap (fun s => ImprovementProcess.all.find?
      (fun p => p.pyName == s))).foldl setAdd [],
    (cws.filterMap (fun s => CollaborationWorkflow.all.find?
      (fun p => p.pyName == s))).foldl setAdd []⟩, ?_, ?_, ?_, ?_, ?_, ?_⟩
  · unfold create_framework_from_config
    rw [h1, h2, h3, h4, h5, h6, h7]
    simp only [resolveNames_strList, exceptBindOk]
    rw [dynCreate_ok]
  · intro p
    rw [mem_foldl_setAdd]
    simp only [List.not_mem_nil, false_or]
    exact mem_filterMap_find _ _ ep_pyName_inj
      ep_mem_all eps p
  · intro p
    rw [mem_foldl_setAdd]
    simp only [List.not_mem_nil, false_or]
    exact mem_filterMap_find _ _ cp_pyName_inj
      cp_mem_all cps p
  · intro p
    rw [mem_foldl_setAdd]
    simp only [List.not_mem_nil, false_or]
    exact mem_filterMap_find _ _ fm_pyName_inj
      fm_mem_all fms p
  · intro p
    rw [mem_foldl_setAdd]
    simp only [List.not_mem_nil, false_or]
    exact mem_filterMap_find _ _ ip_pyName_inj
      ip_mem_all ips p
  · intro p
    rw [mem_foldl_setAdd]
    simp only [List.not_mem_nil, false_or]
    exact mem_filterMap_find _ _ cw_pyName_inj
      cw_mem_all cws p

/-- Witness for C3: the spec's example configuration
`{"ethical_principles": ["TRANSPARENCY", "NONEXISTENT"]}` succeeds, and a
principle is active exactly when its name is `TRANSPARENCY` or
`NONEXISTENT` — so the active ethical principles set is exactly
`{TRANSPARENCY}`, the unknown name silently dropped. -/
theorem from_config_resolves_witness :
    ∃ fw : DynFramework,
      create_framework_from_config
          [("ethical_principles",
            ConfigValue.list [.str "TRANSPARENCY", .str "NONEXISTENT"])]
        = .ok fw ∧
      (∀ p : EthicalPrinciple, p ∈ fw.active_principles
        ↔ p.pyName ∈ ["TRANSPARENCY", "NONEXISTENT"]) ∧
      (∀ p : CommunicationProtocol, p ∈ fw.active_protocols ↔ p.pyName ∈ ([] : List String)) ∧
      (∀ p : FeedbackMechanism, p ∈ fw.active_feedback_mechanisms ↔ p.pyName ∈ ([] : List String)) ∧
      (∀ p : ImprovementProcess, p ∈ fw.active_improvement_processes ↔ p.pyName ∈ ([] : List String)) ∧
      (∀ p : CollaborationWorkflow, p ∈ fw.active_workflows ↔ p.pyName ∈ ([] : List String)) :=
  from_config_resolves_and_drops_unknown_names
    [("ethical_principles",
      ConfigValue.list [.str "TRANSPARENCY", .str "NONEXISTENT"])]
    [] [] ["TRANSPARENCY", "NONEXISTENT"] [] [] [] []
    rfl rfl rfl rfl rfl rfl rfl

end HumanAI
